import Mathlib

/-!
# Verification of the `@mexty/block` federation loader and registry resolver

A shallow embedding of the two stateful subsystems of the `mexty-block`
package:

* `src/utils/federationLoader.ts` — the `FederationLoader` class: module
  cache with a fixed 5-minute TTL, in-flight promise table deduplicating
  concurrent `loadModule` calls, metadata gating, script-URL resolution and
  the ordered candidate search over the global federation namespace.
* `src/utils/blockRegistry.ts` — the `BlockRegistryManager` class: the
  global and author-scoped name-to-entry mappings, failure-tolerant
  `fetchRegistry`, and the TTL-gated reads built on it.
* `src/config.ts` — the `configure` entry point.

JavaScript objects used as string-keyed dictionaries are embedded as
association lists; `Date.now()` timestamps are explicit `Nat` parameters
(`Nat` truncated subtraction agrees with the JS comparisons here because a
negative JS difference and the truncated `0` fall on the same side of every
threshold used by the code); promises are identified by abstract `Nat` ids,
and the asynchronous environment (axios responses, script-load outcomes, the
`window` global namespace) is passed in explicitly.  `async` control flow is
embedded as a small-step protocol: `loadModuleCall` is the synchronous
prefix of `loadModule` (cache check, in-flight join, load start) and
`completeLoad` is the continuation that runs when `_loadModuleInternal`
settles (cache write on success, `finally`-deletion of the in-flight entry).
-/

/-! ## Association-list dictionaries

JS objects keyed by strings: lookup, insert-or-replace (property
assignment), and delete. -/

def lookupA {α : Type} : List (String × α) → String → Option α
  | [], _ => none
  | (k, v) :: rest, key => if k = key then some v else lookupA rest key

def upsertA {α : Type} : List (String × α) → String → α → List (String × α)
  | [], key, v => [(key, v)]
  | (k, w) :: rest, key, v =>
      if k = key then (key, v) :: rest else (k, w) :: upsertA rest key v

def eraseA {α : Type} : List (String × α) → String → List (String × α)
  | [], _ => []
  | (k, w) :: rest, key =>
      if k = key then eraseA rest key else (k, w) :: eraseA rest key

/-! ## Federation loader data model (`src/utils/federationLoader.ts`) -/

/-- A JavaScript value as far as the loader inspects one: a function, some
other truthy value, or a falsy value (`undefined`, `null`, `0`, `""`, ...). -/
inductive JsVal : Type
  | fnVal (id : Nat)
  | truthyVal
  | falsyVal
deriving DecidableEq

def JsVal.truthy : JsVal → Bool
  | .falsyVal => false
  | _ => true

/-- `typeof v === "function"`. -/
def JsVal.isFn : JsVal → Bool
  | .fnVal _ => true
  | _ => false

/-- The object produced by `factory()` in `_extractModule`: the loader reads
`module.mount` and `module.default?.mount`. -/
structure FedModule : Type where
  mount : JsVal
  defaultMount : JsVal
deriving DecidableEq

/-- `const mountFunction = module.mount || module.default?.mount`. -/
def mountCandidate (m : FedModule) : JsVal :=
  if m.mount.truthy then m.mount else m.defaultMount

/-- `typeof mountFunction === 'function'`. -/
def hasMountFn (m : FedModule) : Bool :=
  (mountCandidate m).isFn

/-- A federation container found on `window`: a truthy object with a truthy
`get` property.  `getBlock` is the combined outcome of
`await container.get('./Block')` followed by `factory()`; a thrown error in
either step is `Except.error`. -/
structure Container : Type where
  getBlock : Except String FedModule

/-- `buildStatus` field of the metadata. -/
inductive BuildStatus : Type
  | pending
  | building
  | success
  | failed
deriving DecidableEq

/-- String interpolation of a `buildStatus` value. -/
def BuildStatus.toText : BuildStatus → String
  | .pending => "pending"
  | .building => "building"
  | .success => "success"
  | .failed => "failed"

/-- `BlockMetadata` as consumed by the loader (`blockProps`/timestamps are
never read by it).  A missing `federationUrl` is the empty string, the only
falsy JS string. -/
structure BlockMetadata : Type where
  blockId : String
  title : String
  description : String
  federationUrl : String
  buildStatus : BuildStatus
deriving DecidableEq

/-- One entry of `FederationModuleCache`. -/
structure CacheEntry : Type where
  component : FedModule
  loadedAt : Nat
  federationUrl : String
deriving DecidableEq

/-- The mutable fields of the `FederationLoader` class: `cache`,
`loadingPromises` (promises abstracted to `Nat` ids), `serverUrl`. -/
structure LoaderState : Type where
  cache : List (String × CacheEntry)
  loadingPromises : List (String × Nat)
  serverUrl : String
deriving DecidableEq

/-- `new FederationLoader()` — the global instance. -/
def initialLoaderState : LoaderState :=
  { cache := [], loadingPromises := [], serverUrl := "https://api.v2.mext.app" }

/-- The hard-coded module-cache TTL: `5 * 60 * 1000` milliseconds. -/
def MODULE_CACHE_TTL : Nat := 5 * 60 * 1000

/-- Outcome of the synchronous prefix of `loadModule`. -/
inductive CallResult : Type
  | cachedHit (component : FedModule)
  | joined (pid : Nat)
  | started (pid : Nat)
deriving DecidableEq

/-- Lines 102-110 of `loadModule`: join the in-flight promise when one
exists, else record a fresh promise for `_loadModuleInternal`. -/
def loadModuleStart (s : LoaderState) (blockId : String) (freshPid : Nat) :
    CallResult × LoaderState :=
  match lookupA s.loadingPromises blockId with
  | some pid => (.joined pid, s)
  | none =>
      (.started freshPid,
       { s with loadingPromises := upsertA s.loadingPromises blockId freshPid })

/-- The synchronous prefix of `loadModule(blockId)` at time `now`: return the
cached component while `Date.now() - cached.loadedAt < 5 * 60 * 1000`,
otherwise fall through to the in-flight table. -/
def loadModuleCall (s : LoaderState) (blockId : String) (now : Nat) (freshPid : Nat) :
    CallResult × LoaderState :=
  match lookupA s.cache blockId with
  | some cached =>
      if now - cached.loadedAt < MODULE_CACHE_TTL then
        (.cachedHit cached.component, s)
      else
        loadModuleStart s blockId freshPid
  | none => loadModuleStart s blockId freshPid

/-- `blockId.replace(/[^a-zA-Z0-9]/g, '')`. -/
def stripNonAlnum (s : String) : String :=
  String.mk (s.data.filter fun c => c.isAlphanum)

/-- The ordered candidate list of `_extractModule`. -/
def possibleNames (blockId : String) : List String :=
  [blockId,
   stripNonAlnum blockId,
   "block" ++ stripNonAlnum blockId,
   "threescene"]

/-- The loop body of `_extractModule`: first candidate that is a container
whose `get('./Block')` yields a module with a mount function; all other
candidates are skipped (warnings are console output only). -/
def searchContainers (w : String → Option Container) : List String → Option FedModule
  | [] => none
  | name :: rest =>
      match w name with
      | none => searchContainers w rest
      | some container =>
          match container.getBlock with
          | .error _ => searchContainers w rest
          | .ok m => if hasMountFn m then some m else searchContainers w rest

/-- `_extractModule(blockId)` against the global namespace `w`
(`w name = none` models a global that is absent, falsy, or lacks a truthy
`get`). -/
def extractModule (w : String → Option Container) (blockId : String) :
    Except String FedModule :=
  match searchContainers w (possibleNames blockId) with
  | some m => .ok m
  | none =>
      .error ("Federation container not found for block " ++ blockId ++
        ". Tried: " ++ String.intercalate ", " (possibleNames blockId))

/-- JS `s.startsWith(p)`: character-wise prefix test (structural, unlike
`String.startsWith`, whose well-founded byte loop the kernel cannot
evaluate). -/
def startsWithJs (s p : String) : Bool :=
  p.data.isPrefixOf s.data

/-- Line 139-141 of `_loadModuleInternal`: use `federationUrl` as-is when it
starts with `"http"`, else prepend the server URL. -/
def resolveScriptUrl (serverUrl federationUrl : String) : String :=
  if startsWithJs federationUrl "http" then federationUrl
  else serverUrl ++ federationUrl

/-- The asynchronous environment one `_loadModuleInternal` run interacts
with: the axios response for the metadata request, the script-load outcome
per URL (`true` = existing tag or `onload`, `false` = `onerror`), and the
`window` namespace at module-search time. -/
structure LoadEnv : Type where
  fetchMeta : Except String BlockMetadata
  scriptOk : String → Bool
  window : String → Option Container

/-- `getBlockMetadata`: rethrows an axios failure as
`Failed to fetch block metadata: ...`. -/
def getBlockMetadata (env : LoadEnv) : Except String BlockMetadata :=
  match env.fetchMeta with
  | .ok m => .ok m
  | .error e => .error ("Failed to fetch block metadata: " ++ e)

/-- Network / DOM activity performed by one `_loadModuleInternal` run. -/
inductive LoadEvent : Type
  | metadataFetch
  | scriptLoad (url : String)
  | moduleSearch
deriving DecidableEq

/-- `_loadModuleInternal(blockId)` at time `now`: metadata gating, script
load, module search, cache write on full success only.  Returns the result,
the resulting `cache` field, and the activity trace. -/
def loadModuleInternal (env : LoadEnv) (s : LoaderState) (blockId : String) (now : Nat) :
    Except String FedModule × List (String × CacheEntry) × List LoadEvent :=
  match getBlockMetadata env with
  | .error e => (.error e, s.cache, [.metadataFetch])
  | .ok metadata =>
      if metadata.federationUrl = "" then
        (.error ("Block " ++ blockId ++ " does not have a federation URL"),
         s.cache, [.metadataFetch])
      else if metadata.buildStatus ≠ .success then
        (.error ("Block " ++ blockId ++ " build status is " ++ metadata.buildStatus.toText),
         s.cache, [.metadataFetch])
      else
        let federationUrl := resolveScriptUrl s.serverUrl metadata.federationUrl
        if env.scriptOk federationUrl then
          match extractModule env.window blockId with
          | .ok m =>
              (.ok m,
               upsertA s.cache blockId
                 { component := m, loadedAt := now, federationUrl := metadata.federationUrl },
               [.metadataFetch, .scriptLoad federationUrl, .moduleSearch])
          | .error e =>
              (.error e, s.cache,
               [.metadataFetch, .scriptLoad federationUrl, .moduleSearch])
        else
          (.error ("Failed to load script: " ++ federationUrl), s.cache,
           [.metadataFetch, .scriptLoad federationUrl])

/-- The continuation of `loadModule` once its `_loadModuleInternal` promise
settles: adopt the cache produced by the internal run (unchanged on
failure) and delete the in-flight entry (the `finally` block), which the
single-threaded model applies atomically. -/
def completeLoad (s : LoaderState) (blockId : String)
    (result : Except String FedModule × List (String × CacheEntry) × List LoadEvent) :
    LoaderState :=
  { s with
    cache := result.2.1,
    loadingPromises := eraseA s.loadingPromises blockId }

/-- `clearCache(blockId?)`. -/
def clearCache (s : LoaderState) (blockId : Option String) : LoaderState :=
  match blockId with
  | some b => { s with cache := eraseA s.cache b }
  | none => { s with cache := [] }

/-- `setServerUrl(url)` on the loader. -/
def loaderSetServerUrl (s : LoaderState) (url : String) : LoaderState :=
  { s with serverUrl := url }

/-! ## Loader trace semantics

The single-threaded event-loop model: a state is reachable when it arises
from the global instance by interleaving call prefixes, promise
completions, cache clears and server-URL updates.  `t` is a lower bound on
the current `Date.now()`: every step happens at a time `now ≥ t`. -/

inductive Reach : LoaderState → Nat → Prop
  | init : Reach initialLoaderState 0
  | callStep {s : LoaderState} {t : Nat} (now blockId freshPid) :
      Reach s t → t ≤ now → Reach (loadModuleCall s blockId now freshPid).2 now
  | completeStep {s : LoaderState} {t : Nat} (now blockId env) :
      Reach s t → t ≤ now →
      Reach (completeLoad s blockId (loadModuleInternal env s blockId now)) now
  | clearStep {s : LoaderState} {t : Nat} (blockId) :
      Reach s t → Reach (clearCache s blockId) t
  | serverUrlStep {s : LoaderState} {t : Nat} (url) :
      Reach s t → Reach (loaderSetServerUrl s url) t

/-- Loader bookkeeping invariant at time `t`: the in-flight table has no
duplicate keys, every cache entry was written in the past, and an identifier
that is in flight has no fresh cache entry (its load started only once the
cached entry, if any, had expired, and time is monotone). -/
def LoaderInv (s : LoaderState) (t : Nat) : Prop :=
  (s.loadingPromises.map Prod.fst).Nodup ∧
  (∀ x e, lookupA s.cache x = some e → e.loadedAt ≤ t) ∧
  (∀ x e pid, lookupA s.loadingPromises x = some pid →
      lookupA s.cache x = some e → MODULE_CACHE_TTL ≤ t - e.loadedAt)

/-! ## Registry resolver (`src/utils/blockRegistry.ts`) -/

/-- `BlockRegistryEntry`. -/
structure BlockRegistryEntry : Type where
  blockId : String
  componentName : String
  author : Option String
  title : String
  description : String
  version : Option String
  tags : Option (List String)
  lastUpdated : String
deriving DecidableEq

/-- The mutable fields of `BlockRegistryManager`. -/
structure RegistryState : Type where
  registry : List (String × BlockRegistryEntry)
  authorRegistry : List (String × List (String × BlockRegistryEntry))
  serverUrl : String
  lastFetched : Nat
  cacheDuration : Nat
deriving DecidableEq

/-- `new BlockRegistryManager()` — the global instance. -/
def initialRegistryState : RegistryState :=
  { registry := [], authorRegistry := [],
    serverUrl := "https://api.v2.mext.app", lastFetched := 0,
    cacheDuration := 5 * 60 * 1000 }

/-- `response.data` of `GET /api/blocks/registry`; either field may be
absent (`none`), which `fetchRegistry` defaults to `{}`. -/
structure RegistryResponseData : Type where
  registry : Option (List (String × BlockRegistryEntry))
  authorRegistry : Option (List (String × List (String × BlockRegistryEntry)))

/-- `fetchRegistry()` run against the axios outcome `resp` at time `now`:
on success both mappings are replaced wholesale and `lastFetched` is set;
on failure the error is caught and the previously cached mappings are
returned with the state untouched. -/
def fetchRegistry (s : RegistryState) (resp : Except String RegistryResponseData)
    (now : Nat) :
    RegistryState ×
      List (String × BlockRegistryEntry) ×
      List (String × List (String × BlockRegistryEntry)) :=
  match resp with
  | .ok data =>
      let reg := data.registry.getD []
      let areg := data.authorRegistry.getD []
      ({ s with registry := reg, authorRegistry := areg, lastFetched := now },
       reg, areg)
  | .error _ => (s, s.registry, s.authorRegistry)

/-- The fetch condition of `getRegistry`:
`now - this.lastFetched > this.cacheDuration || Object.keys(this.registry).length === 0`. -/
def registryStale (s : RegistryState) (now : Nat) : Bool :=
  decide (s.cacheDuration < now - s.lastFetched) || s.registry.isEmpty

/-- The fetch condition of `getAuthorRegistry`. -/
def authorRegistryStale (s : RegistryState) (now : Nat) : Bool :=
  decide (s.cacheDuration < now - s.lastFetched) || s.authorRegistry.isEmpty

/-- `getRegistry()`: fetch when stale or empty, then return the global
mapping.  The final `Bool` records whether a server fetch was attempted. -/
def getRegistry (s : RegistryState) (resp : Except String RegistryResponseData)
    (now : Nat) : RegistryState × List (String × BlockRegistryEntry) × Bool :=
  if registryStale s now then
    ((fetchRegistry s resp now).1, (fetchRegistry s resp now).1.registry, true)
  else
    (s, s.registry, false)

/-- `getAuthorRegistry()`. -/
def getAuthorRegistry (s : RegistryState) (resp : Except String RegistryResponseData)
    (now : Nat) :
    RegistryState × List (String × List (String × BlockRegistryEntry)) × Bool :=
  if authorRegistryStale s now then
    ((fetchRegistry s resp now).1, (fetchRegistry s resp now).1.authorRegistry, true)
  else
    (s, s.authorRegistry, false)

/-- `getBlockId(componentName)`. -/
def getBlockId (s : RegistryState) (resp : Except String RegistryResponseData)
    (now : Nat) (componentName : String) : RegistryState × Option String × Bool :=
  match getRegistry s resp now with
  | (s2, reg, fetched) =>
      (s2, (lookupA reg componentName).map (fun e => e.blockId), fetched)

/-- `getAuthorBlockId(author, componentName)`. -/
def getAuthorBlockId (s : RegistryState) (resp : Except String RegistryResponseData)
    (now : Nat) (author componentName : String) :
    RegistryState × Option String × Bool :=
  match getAuthorRegistry s resp now with
  | (s2, areg, fetched) =>
      (s2,
       ((lookupA areg author).bind fun authorMap =>
         lookupA authorMap componentName).map (fun e => e.blockId),
       fetched)

/-- `getAvailableComponents()`. -/
def getAvailableComponents (s : RegistryState)
    (resp : Except String RegistryResponseData) (now : Nat) :
    RegistryState × List String × Bool :=
  match getRegistry s resp now with
  | (s2, reg, fetched) => (s2, reg.map Prod.fst, fetched)

/-- `addComponent` / `clearCache` / `setServerUrl` on the registry. -/
def addComponent (s : RegistryState) (componentName : String)
    (entry : BlockRegistryEntry) : RegistryState :=
  { s with registry := upsertA s.registry componentName entry }

def registryClearCache (s : RegistryState) : RegistryState :=
  { s with registry := [], authorRegistry := [], lastFetched := 0 }

def registrySetServerUrl (s : RegistryState) (url : String) : RegistryState :=
  { s with serverUrl := url }

/-! ## Package configuration (`src/config.ts`) -/

/-- `MextBlockConfig`. -/
structure MextBlockConfig : Type where
  serverUrl : Option String
  cacheDuration : Option Nat
  enableLogging : Option Bool

/-- `configure(config)`: only a truthy `serverUrl` (a non-empty string) is
applied, to both singletons; `enableLogging` only logs; no other field is
read. -/
def configure (cfg : MextBlockConfig) (loader : LoaderState) (reg : RegistryState) :
    LoaderState × RegistryState :=
  match cfg.serverUrl with
  | some url =>
      if url = "" then (loader, reg)
      else (loaderSetServerUrl loader url, registrySetServerUrl reg url)
  | none => (loader, reg)

/-! ## Auxiliary definitions for the statements -/

/-- A burst of further `loadModule` call prefixes `(blockId, now, freshPid)`
executed one after the other with no intervening completion. -/
def runCalls (s : LoaderState) (cs : List (String × Nat × Nat)) : LoaderState :=
  cs.foldl (fun st c => (loadModuleCall st c.1 c.2.1 c.2.2).2) s

/-- A candidate name on which `_extractModule` moves on to the next name:
no usable container under it, or `get('./Block')`/`factory()` throws, or
the module lacks a mount function. -/
def candidateFails (w : String → Option Container) (name : String) : Bool :=
  match w name with
  | none => true
  | some container =>
      match container.getBlock with
      | .error _ => true
      | .ok m => ! hasMountFn m

/-- Stated from the spec (for comparison with `resolveScriptUrl`): a URL
that is "already absolute", i.e. carries the http or https scheme. -/
def specAbsoluteUrl (url : String) : Bool :=
  startsWithJs url "http://" || startsWithJs url "https://"

/-- Sample module exposing a mount function (for witnesses). -/
def sampleModule : FedModule :=
  { mount := .fnVal 0, defaultMount := .falsyVal }

/-- Sample successful metadata (for witnesses). -/
def sampleMetadata : BlockMetadata :=
  { blockId := "b1", title := "Block one", description := "sample",
    federationUrl := "/blocks/b1/remoteEntry.js", buildStatus := .success }

/-- Sample environment where every stage of a load of "b1" succeeds. -/
def sampleEnv : LoadEnv :=
  { fetchMeta := .ok sampleMetadata,
    scriptOk := fun _ => true,
    window := fun n =>
      if n = "b1" then some { getBlock := .ok sampleModule } else none }

/-- A global namespace exposing a container only under the third candidate
name for the identifier "b-1!" (whose stripped form is "b1"). -/
def thirdNameWindow : String → Option Container :=
  fun n => if n = "blockb1" then some { getBlock := .ok sampleModule } else none

/-- The loader state after a successful load of "b1" at time 0 in
`sampleEnv` (for witnesses). -/
def sampleLoaded : LoaderState :=
  completeLoad initialLoaderState "b1"
    (loadModuleInternal sampleEnv initialLoaderState "b1" 0)

/-- Sample registry entry mapping the component name "Chart" to the block
identifier "abc123" (for witnesses). -/
def chartEntry : BlockRegistryEntry :=
  { blockId := "abc123", componentName := "Chart", author := none,
    title := "Chart", description := "a chart block", version := none,
    tags := none, lastUpdated := "2024-01-01T00:00:00Z" }

/-- Registry state after a successful fetch at time 1000 that delivered the
"Chart" entry (for witnesses). -/
def chartRegistryState : RegistryState :=
  { registry := [("Chart", chartEntry)], authorRegistry := [],
    serverUrl := "https://api.v2.mext.app", lastFetched := 1000,
    cacheDuration := 5 * 60 * 1000 }

/-! ## General lemmas -/

theorem lookupA_upsertA_self {α : Type} (l : List (String × α)) (k : String) (v : α) :
    lookupA (upsertA l k v) k = some v := by
  induction l with
  | nil => simp [upsertA, lookupA]
  | cons hd tl ih =>
      obtain ⟨k', w⟩ := hd
      by_cases h : k' = k <;> simp [upsertA, lookupA, h, ih]

theorem lookupA_upsertA_ne {α : Type} (l : List (String × α)) (k k' : String) (v : α)
    (h : k ≠ k') : lookupA (upsertA l k v) k' = lookupA l k' := by
  induction l with
  | nil => simp [upsertA, lookupA, h]
  | cons hd tl ih =>
      obtain ⟨k'', w⟩ := hd
      by_cases h2 : k'' = k
      · subst h2; simp [upsertA, lookupA, h]
      · simp [upsertA, lookupA, h2, ih]

theorem lookupA_eraseA_self {α : Type} (l : List (String × α)) (k : String) :
    lookupA (eraseA l k) k = none := by
  induction l with
  | nil => simp [eraseA, lookupA]
  | cons hd tl ih =>
      obtain ⟨k', w⟩ := hd
      by_cases h : k' = k <;> simp [eraseA, lookupA, h, ih]

theorem lookupA_eraseA_ne {α : Type} (l : List (String × α)) (k k' : String)
    (h : k ≠ k') : lookupA (eraseA l k) k' = lookupA l k' := by
  induction l with
  | nil => simp [eraseA]
  | cons hd tl ih =>
      obtain ⟨k'', w⟩ := hd
      by_cases h2 : k'' = k
      · subst h2; simp [eraseA, lookupA, h, ih]
      · simp [eraseA, lookupA, h2, ih]

theorem mem_keys_upsertA {α : Type} (l : List (String × α)) (k a : String) (v : α)
    (h : a ∈ (upsertA l k v).map Prod.fst) : a = k ∨ a ∈ l.map Prod.fst := by
  induction l with
  | nil => exact Or.inl (by simpa [upsertA] using h)
  | cons hd tl ih =>
      obtain ⟨k', w⟩ := hd
      by_cases h2 : k' = k
      · subst h2
        rcases (by simpa [upsertA] using h : a = k' ∨ a ∈ tl.map Prod.fst) with h3 | h3
        · exact Or.inl h3
        · exact Or.inr (by simp [h3])
      · rcases (by simpa [upsertA, h2] using h : a = k' ∨ a ∈ (upsertA tl k v).map Prod.fst)
          with h3 | h3
        · exact Or.inr (by simp [h3])
        · rcases ih h3 with h4 | h4
          · exact Or.inl h4
          · exact Or.inr (by simp [h4])

theorem mem_keys_eraseA {α : Type} (l : List (String × α)) (k a : String)
    (h : a ∈ (eraseA l k).map Prod.fst) : a ∈ l.map Prod.fst := by
  induction l with
  | nil => exact absurd h (by simp [eraseA])
  | cons hd tl ih =>
      obtain ⟨k', w⟩ := hd
      by_cases h2 : k' = k
      · exact List.mem_cons_of_mem _ (ih (by simpa [eraseA, h2] using h))
      · rcases (by simpa [eraseA, h2] using h : a = k' ∨ a ∈ (eraseA tl k).map Prod.fst)
          with h3 | h3
        · simp [h3]
        · exact List.mem_cons_of_mem _ (ih h3)

theorem nodup_keys_upsertA {α : Type} (l : List (String × α)) (k : String) (v : α)
    (h : (l.map Prod.fst).Nodup) : ((upsertA l k v).map Prod.fst).Nodup := by
  induction l with
  | nil => simp [upsertA]
  | cons hd tl ih =>
      obtain ⟨k', w⟩ := hd
      rw [List.map_cons, List.nodup_cons] at h
      by_cases h2 : k' = k
      · subst h2
        simpa [upsertA, List.nodup_cons] using h
      · simp only [upsertA, if_neg h2, List.map_cons, List.nodup_cons]
        constructor
        · intro hc
          rcases mem_keys_upsertA tl k k' v hc with h3 | h3
          · exact h2 h3
          · exact h.1 h3
        · exact ih h.2

theorem nodup_keys_eraseA {α : Type} (l : List (String × α)) (k : String)
    (h : (l.map Prod.fst).Nodup) : ((eraseA l k).map Prod.fst).Nodup := by
  induction l with
  | nil => simp [eraseA]
  | cons hd tl ih =>
      obtain ⟨k', w⟩ := hd
      rw [List.map_cons, List.nodup_cons] at h
      by_cases h2 : k' = k
      · simpa [eraseA, h2] using ih h.2
      · simp only [eraseA, if_neg h2, List.map_cons, List.nodup_cons]
        exact ⟨fun hc => h.1 (mem_keys_eraseA tl k k' hc), ih h.2⟩

theorem countP_eq_zero_of_not_mem_keys {α : Type} (l : List (String × α)) (x : String)
    (h : x ∉ l.map Prod.fst) : l.countP (fun p => p.1 = x) = 0 := by
  induction l with
  | nil => simp
  | cons hd tl ih =>
      obtain ⟨k, v⟩ := hd
      simp only [List.map_cons, List.mem_cons, not_or] at h
      rw [List.countP_cons]
      simp only [decide_eq_true_eq]
      have : ¬ (k = x) := fun hc => h.1 hc.symm
      simp [this, ih h.2]

theorem countP_le_one_of_nodup_keys {α : Type} (l : List (String × α)) (x : String)
    (h : (l.map Prod.fst).Nodup) : l.countP (fun p => p.1 = x) ≤ 1 := by
  induction l with
  | nil => simp
  | cons hd tl ih =>
      obtain ⟨k, v⟩ := hd
      rw [List.map_cons, List.nodup_cons] at h
      rw [List.countP_cons]
      by_cases h2 : k = x
      · subst h2
        rw [countP_eq_zero_of_not_mem_keys tl k h.1]
        simp
      · simp only [decide_eq_true_eq, h2]
        simpa using ih h.2

theorem loadModuleStart_cases (s : LoaderState) (b : String) (pid : Nat) :
    (∃ q, lookupA s.loadingPromises b = some q ∧ loadModuleStart s b pid = (.joined q, s)) ∨
    (lookupA s.loadingPromises b = none ∧
     loadModuleStart s b pid =
       (.started pid, { s with loadingPromises := upsertA s.loadingPromises b pid })) := by
  cases hl : lookupA s.loadingPromises b with
  | some q => exact Or.inl ⟨q, rfl, by simp [loadModuleStart, hl]⟩
  | none => exact Or.inr ⟨rfl, by simp [loadModuleStart, hl]⟩


theorem loadModuleCall_cases (s : LoaderState) (b : String) (now pid : Nat) :
    (∃ e, lookupA s.cache b = some e ∧ now - e.loadedAt < MODULE_CACHE_TTL ∧
       loadModuleCall s b now pid = (.cachedHit e.component, s)) ∨
    ((∀ e, lookupA s.cache b = some e → MODULE_CACHE_TTL ≤ now - e.loadedAt) ∧
       loadModuleCall s b now pid = loadModuleStart s b pid) := by
  cases hc : lookupA s.cache b with
  | some e =>
      by_cases ht : now - e.loadedAt < MODULE_CACHE_TTL
      · exact Or.inl ⟨e, rfl, ht, by simp [loadModuleCall, hc, ht]⟩
      · refine Or.inr ⟨fun e' he' => ?_, by simp [loadModuleCall, hc, ht]⟩
        have he2 : e = e' := Option.some.inj he'
        subst he2
        exact Nat.le_of_not_lt ht
  | none =>
      refine Or.inr ⟨fun e' he' => ?_, by simp [loadModuleCall, hc]⟩
      cases he'

theorem loadModuleInternal_cases (env : LoadEnv) (s : LoaderState) (b : String) (now : Nat) :
    ((loadModuleInternal env s b now).2.1 = s.cache ∧
       ∃ e, (loadModuleInternal env s b now).1 = .error e) ∨
    (∃ m md, env.fetchMeta = .ok md ∧ (loadModuleInternal env s b now).1 = .ok m ∧
       (loadModuleInternal env s b now).2.1 =
         upsertA s.cache b
           { component := m, loadedAt := now, federationUrl := md.federationUrl }) := by
  cases hf : env.fetchMeta with
  | error e => exact Or.inl (by simp [loadModuleInternal, getBlockMetadata, hf])
  | ok md =>
      by_cases h1 : md.federationUrl = ""
      · exact Or.inl (by simp [loadModuleInternal, getBlockMetadata, hf, h1])
      · by_cases h2 : md.buildStatus = BuildStatus.success
        · by_cases h3 : env.scriptOk (resolveScriptUrl s.serverUrl md.federationUrl)
          · cases hx : extractModule env.window b with
            | ok m =>
                refine Or.inr ⟨m, md, rfl, ?_, ?_⟩ <;>
                  simp [loadModuleInternal, getBlockMetadata, hf, h1, h2, h3, hx]
            | error e =>
                exact Or.inl
                  (by simp [loadModuleInternal, getBlockMetadata, hf, h1, h2, h3, hx])
          · exact Or.inl (by simp [loadModuleInternal, getBlockMetadata, hf, h1, h2, h3])
        · exact Or.inl (by simp [loadModuleInternal, getBlockMetadata, hf, h1, h2])

theorem completeLoad_cache (s : LoaderState) (b : String)
    (r : Except String FedModule × List (String × CacheEntry) × List LoadEvent) :
    (completeLoad s b r).cache = r.2.1 := rfl

theorem completeLoad_loading (s : LoaderState) (b : String)
    (r : Except String FedModule × List (String × CacheEntry) × List LoadEvent) :
    (completeLoad s b r).loadingPromises = eraseA s.loadingPromises b := rfl

theorem loaderInv_reach {s : LoaderState} {t : Nat} (h : Reach s t) : LoaderInv s t := by
  induction h with
  | init =>
      refine ⟨by simp [initialLoaderState], ?_, ?_⟩
      · intro x e he
        simp [initialLoaderState, lookupA] at he
      · intro x e pid hl
        simp [initialLoaderState, lookupA] at hl
  | callStep now b pid hr hle ih =>
      rename_i s1 t1
      obtain ⟨ihn, ihc, ihf⟩ := ih
      rcases loadModuleCall_cases s1 b now pid with ⟨e, hc, ht, heq⟩ | ⟨hexp, heq⟩
      · rw [heq]
        exact ⟨ihn, fun x e' he' => le_trans (ihc x e' he') hle,
          fun x e' pid' hl hc' => le_trans (ihf x e' pid' hl hc')
            (Nat.sub_le_sub_right hle _)⟩
      · rcases loadModuleStart_cases s1 b pid with ⟨q, hl, heq2⟩ | ⟨hl, heq2⟩
        · rw [heq, heq2]
          exact ⟨ihn, fun x e' he' => le_trans (ihc x e' he') hle,
            fun x e' pid' hl' hc' => le_trans (ihf x e' pid' hl' hc')
              (Nat.sub_le_sub_right hle _)⟩
        · rw [heq, heq2]
          refine ⟨nodup_keys_upsertA _ _ _ ihn,
            fun x e' he' => le_trans (ihc x e' he') hle, ?_⟩
          intro x e' pid' hl' hc'
          by_cases hx : b = x
          · subst hx
            exact hexp e' hc'
          · rw [lookupA_upsertA_ne _ _ _ _ hx] at hl'
            exact le_trans (ihf x e' pid' hl' hc') (Nat.sub_le_sub_right hle _)
  | completeStep now b env hr hle ih =>
      rename_i s1 t1
      obtain ⟨ihn, ihc, ihf⟩ := ih
      refine ⟨by rw [completeLoad_loading]; exact nodup_keys_eraseA _ _ ihn, ?_, ?_⟩
      · intro x e' he'
        rw [completeLoad_cache] at he'
        rcases loadModuleInternal_cases env s1 b now with ⟨hcache, _⟩ |
          ⟨m, md, _, _, hcache⟩
        · rw [hcache] at he'
          exact le_trans (ihc x e' he') hle
        · rw [hcache] at he'
          by_cases hx : b = x
          · subst hx
            rw [lookupA_upsertA_self] at he'
            cases he'
            exact le_refl now
          · rw [lookupA_upsertA_ne _ _ _ _ hx] at he'
            exact le_trans (ihc x e' he') hle
      · intro x e' pid' hl' hc'
        rw [completeLoad_loading] at hl'
        rw [completeLoad_cache] at hc'
        by_cases hx : b = x
        · subst hx
          rw [lookupA_eraseA_self] at hl'
          cases hl'
        · rw [lookupA_eraseA_ne _ _ _ hx] at hl'
          rcases loadModuleInternal_cases env s1 b now with ⟨hcache, _⟩ |
            ⟨m, md, _, _, hcache⟩
          · rw [hcache] at hc'
            exact le_trans (ihf x e' pid' hl' hc') (Nat.sub_le_sub_right hle _)
          · rw [hcache, lookupA_upsertA_ne _ _ _ _ hx] at hc'
            exact le_trans (ihf x e' pid' hl' hc') (Nat.sub_le_sub_right hle _)
  | clearStep b hr ih =>
      rename_i s1 t1
      obtain ⟨ihn, ihc, ihf⟩ := ih
      cases b with
      | none =>
          refine ⟨ihn, ?_, ?_⟩
          · intro x e he
            simp [clearCache, lookupA] at he
          · intro x e pid hl hc
            simp [clearCache, lookupA] at hc
      | some bid =>
          have hc1 : (clearCache s1 (some bid)).cache = eraseA s1.cache bid := rfl
          have hl1 : (clearCache s1 (some bid)).loadingPromises = s1.loadingPromises := rfl
          refine ⟨by rw [hl1]; exact ihn, ?_, ?_⟩
          · intro x e he
            rw [hc1] at he
            by_cases hx : bid = x
            · subst hx
              rw [lookupA_eraseA_self] at he
              cases he
            · rw [lookupA_eraseA_ne _ _ _ hx] at he
              exact ihc x e he
          · intro x e pid hl hc
            rw [hc1] at hc
            rw [hl1] at hl
            by_cases hx : bid = x
            · subst hx
              rw [lookupA_eraseA_self] at hc
              cases hc
            · rw [lookupA_eraseA_ne _ _ _ hx] at hc
              exact ihf x e pid hl hc
  | serverUrlStep url hr ih => exact ih


theorem loadModuleCall_preserves_inflight (s : LoaderState) (y : String) (now q : Nat)
    (x : String) (pid : Nat) (h : lookupA s.loadingPromises x = some pid) :
    lookupA ((loadModuleCall s y now q).2).loadingPromises x = some pid := by
  rcases loadModuleCall_cases s y now q with ⟨e, hc, ht, heq⟩ | ⟨_, heq⟩
  · rw [heq]
    exact h
  · rw [heq]
    rcases loadModuleStart_cases s y q with ⟨q2, hl2, heq2⟩ | ⟨hl2, heq2⟩
    · rw [heq2]
      exact h
    · rw [heq2]
      by_cases hx : y = x
      · subst hx
        rw [h] at hl2
        cases hl2
      · show lookupA (upsertA s.loadingPromises y q) x = some pid
        rw [lookupA_upsertA_ne _ _ _ _ hx]
        exact h

theorem runCalls_preserves_inflight (s : LoaderState) (cs : List (String × Nat × Nat))
    (x : String) (pid : Nat) (h : lookupA s.loadingPromises x = some pid) :
    lookupA (runCalls s cs).loadingPromises x = some pid := by
  induction cs generalizing s with
  | nil => exact h
  | cons c rest ih =>
      exact ih ((loadModuleCall s c.1 c.2.1 c.2.2).2)
        (loadModuleCall_preserves_inflight s c.1 c.2.1 c.2.2 x pid h)

/-! ## Claim theorems -/

/-- C1: in every reachable loader state, at most one in-flight load exists
per identifier (first conjunct); while a load of `x` is in flight, any
further `loadModule(x)` call prefix returns the very same in-flight promise
and leaves the state unchanged, so all N concurrent callers observe the one
internal run and its single metadata fetch / script injection / module
search (second conjunct, using the reachability invariant that an in-flight
identifier never has a fresh cache entry); a fresh load starts only when no
load of `x` is in flight, and registers its promise (third conjunct);
completion of the internal run — success or failure alike — removes the
in-flight entry (fourth conjunct); and no burst of further calls ever
displaces an in-flight entry before its completion (fifth conjunct). -/
theorem loadModule_inflight_dedup :
    (∀ s t x, Reach s t → s.loadingPromises.countP (fun p => p.1 = x) ≤ 1) ∧
    (∀ s t x pid now pid', Reach s t → t ≤ now →
        lookupA s.loadingPromises x = some pid →
        loadModuleCall s x now pid' = (.joined pid, s)) ∧
    (∀ s x now pid q s', loadModuleCall s x now pid = (.started q, s') →
        lookupA s.loadingPromises x = none ∧ q = pid ∧
        lookupA s'.loadingPromises x = some pid) ∧
    (∀ s x r, lookupA (completeLoad s x r).loadingPromises x = none) ∧
    (∀ s x pid cs, lookupA s.loadingPromises x = some pid →
        lookupA (runCalls s cs).loadingPromises x = some pid) := by
  refine ⟨?_, ?_, ?_, ?_, ?_⟩
  · intro s t x h
    exact countP_le_one_of_nodup_keys _ _ (loaderInv_reach h).1
  · intro s t x pid now pid' h hle hl
    rcases loadModuleCall_cases s x now pid' with ⟨e, hc, ht, heq⟩ | ⟨_, heq⟩
    · exfalso
      have hexp := (loaderInv_reach h).2.2 x e pid hl hc
      exact absurd ht (Nat.not_lt.mpr (le_trans hexp (Nat.sub_le_sub_right hle _)))
    · rw [heq]
      rcases loadModuleStart_cases s x pid' with ⟨q, hl2, heq2⟩ | ⟨hl2, heq2⟩
      · rw [heq2]
        have : q = pid := Option.some.inj (hl2.symm.trans hl)
        rw [this]
      · rw [hl] at hl2
        cases hl2
  · intro s x now pid q s' h
    rcases loadModuleCall_cases s x now pid with ⟨e, hc, ht, heq⟩ | ⟨_, heq⟩
    · rw [heq] at h
      exact absurd h (by simp)
    · rw [heq] at h
      rcases loadModuleStart_cases s x pid with ⟨q2, hl2, heq2⟩ | ⟨hl2, heq2⟩
      · rw [heq2] at h
        exact absurd h (by simp)
      · rw [heq2] at h
        rw [Prod.mk.injEq] at h
        obtain ⟨hres, hstate⟩ := h
        injection hres with hq
        refine ⟨hl2, hq.symm, ?_⟩
        rw [← hstate]
        exact lookupA_upsertA_self _ _ _
  · intro s x r
    rw [completeLoad_loading]
    exact lookupA_eraseA_self _ _
  · intro s x pid cs h
    exact runCalls_preserves_inflight s cs x pid h

/-- Witness for C1: starting from the global instance, a call for "b1" at
time 0 starts promise 7; a second call at time 5 joins promise 7 with the
state unchanged; the in-flight table holds at most one entry for "b1"; a
failed completion removes the entry; and a burst of further calls leaves
promise 7 in flight. -/
theorem loadModule_inflight_dedup_witness :
    (loadModuleCall initialLoaderState "b1" 0 7 =
       (.started 7, (loadModuleCall initialLoaderState "b1" 0 7).2)) ∧
    (loadModuleCall (loadModuleCall initialLoaderState "b1" 0 7).2 "b1" 5 9 =
       (.joined 7, (loadModuleCall initialLoaderState "b1" 0 7).2)) ∧
    ((loadModuleCall initialLoaderState "b1" 0 7).2.loadingPromises.countP
       (fun p => p.1 = "b1") ≤ 1) ∧
    (lookupA (completeLoad (loadModuleCall initialLoaderState "b1" 0 7).2 "b1"
        (.error "metadata fetch failed",
         (loadModuleCall initialLoaderState "b1" 0 7).2.cache,
         [.metadataFetch])).loadingPromises "b1" = none) ∧
    (lookupA (runCalls (loadModuleCall initialLoaderState "b1" 0 7).2
        [("b1", 1, 9), ("b2", 2, 11)]).loadingPromises "b1" = some 7) ∧
    (lookupA initialLoaderState.loadingPromises "b1" = none ∧ (7 : Nat) = 7 ∧
       lookupA ((loadModuleCall initialLoaderState "b1" 0 7).2).loadingPromises "b1" =
         some 7) := by
  refine ⟨by rfl, ?_, ?_, ?_, ?_, ?_⟩
  · exact loadModule_inflight_dedup.2.1 _ 0 "b1" 7 5 9
      (Reach.callStep 0 "b1" 7 Reach.init (by decide)) (by decide) (by rfl)
  · exact loadModule_inflight_dedup.1 _ 0 "b1"
      (Reach.callStep 0 "b1" 7 Reach.init (by decide))
  · exact loadModule_inflight_dedup.2.2.2.1 _ "b1" _
  · exact loadModule_inflight_dedup.2.2.2.2 _ "b1" 7 _ (by rfl)
  · exact loadModule_inflight_dedup.2.2.1 initialLoaderState "b1" 0 7 7 _ (by rfl)

/-- C2: after `loadModule(x)` succeeded at time `T0` (the internal run
returned a module and its completion wrote the cache), the cache holds the
module handle stamped `T0`; a later call at `T1` with `T1 - T0 < TTL`
(`TTL = 5 * 60 * 1000` ms) returns exactly that cached handle with the
state unchanged — the call prefix consults no environment, so no network
activity occurs — while a call with `T1 - T0 ≥ TTL` treats the entry as
absent and starts a fresh load, whose internal run performs the full cycle
of metadata fetch, script load and module extraction (last conjunct, for
any environment passing the gates). -/
theorem loadModule_ttl (env : LoadEnv) (s s2 : LoaderState) (x : String)
    (T0 T1 pid : Nat) (m : FedModule)
    (hok : (loadModuleInternal env s x T0).1 = .ok m)
    (hs2 : s2 = completeLoad s x (loadModuleInternal env s x T0)) :
    (∃ fu, lookupA s2.cache x =
        some { component := m, loadedAt := T0, federationUrl := fu }) ∧
    (T1 - T0 < MODULE_CACHE_TTL →
        loadModuleCall s2 x T1 pid = (.cachedHit m, s2)) ∧
    (MODULE_CACHE_TTL ≤ T1 - T0 →
        loadModuleCall s2 x T1 pid =
          (.started pid,
           { s2 with loadingPromises := upsertA s2.loadingPromises x pid })) ∧
    (∀ env2 md, env2.fetchMeta = .ok md → md.federationUrl ≠ "" →
        md.buildStatus = .success →
        env2.scriptOk (resolveScriptUrl s2.serverUrl md.federationUrl) = true →
        (∃ m2, extractModule env2.window x = .ok m2) →
        (loadModuleInternal env2 s2 x T1).2.2 =
          [.metadataFetch,
           .scriptLoad (resolveScriptUrl s2.serverUrl md.federationUrl),
           .moduleSearch]) := by
  rcases loadModuleInternal_cases env s x T0 with ⟨hcache, e, herr⟩ |
    ⟨m', md, hfm, hok', hcache⟩
  · rw [herr] at hok
    cases hok
  · have hm : m' = m := Except.ok.inj (hok'.symm.trans hok)
    rw [hm] at hcache
    have hcachex : lookupA s2.cache x =
        some { component := m, loadedAt := T0, federationUrl := md.federationUrl } := by
      rw [hs2, completeLoad_cache, hcache]
      exact lookupA_upsertA_self _ _ _
    have hloadx : lookupA s2.loadingPromises x = none := by
      rw [hs2, completeLoad_loading]
      exact lookupA_eraseA_self _ _
    refine ⟨⟨md.federationUrl, hcachex⟩, ?_, ?_, ?_⟩
    · intro ht
      simp [loadModuleCall, hcachex, ht]
    · intro hge
      have hnotlt : ¬ (T1 - T0 < MODULE_CACHE_TTL) := Nat.not_lt.mpr hge
      simp [loadModuleCall, hcachex, hnotlt, loadModuleStart, hloadx]
    · intro env2 md2 h1 h2 h3 h4 hx
      obtain ⟨m2, hx2⟩ := hx
      simp [loadModuleInternal, getBlockMetadata, h1, h2, h3, h4, hx2]

/-- Witness for C2: in `sampleEnv` the load of "b1" completed at time 0
caches `sampleModule`; at time 1 the call prefix returns the cached handle
unchanged; at time 300000 (= TTL) the entry counts as expired and a fresh
load starts, whose internal run fetches metadata, loads the script and
searches the namespace. -/
theorem loadModule_ttl_witness :
    (∃ fu, lookupA sampleLoaded.cache "b1" =
        some { component := sampleModule, loadedAt := 0, federationUrl := fu }) ∧
    (loadModuleCall sampleLoaded "b1" 1 9 = (.cachedHit sampleModule, sampleLoaded)) ∧
    (loadModuleCall sampleLoaded "b1" 300000 9 =
       (.started 9,
        { sampleLoaded with
            loadingPromises := upsertA sampleLoaded.loadingPromises "b1" 9 })) ∧
    ((loadModuleInternal sampleEnv sampleLoaded "b1" 300000).2.2 =
       [.metadataFetch,
        .scriptLoad (resolveScriptUrl sampleLoaded.serverUrl
          sampleMetadata.federationUrl),
        .moduleSearch]) := by
  have h1 := loadModule_ttl sampleEnv initialLoaderState sampleLoaded "b1" 0 1 9
    sampleModule (by rfl) (by rfl)
  have h2 := loadModule_ttl sampleEnv initialLoaderState sampleLoaded "b1" 0 300000 9
    sampleModule (by rfl) (by rfl)
  exact ⟨h1.1, h1.2.1 (by decide), h2.2.2.1 (by decide),
    h2.2.2.2 sampleEnv sampleMetadata rfl (by decide) rfl (by rfl)
      ⟨sampleModule, by rfl⟩⟩

/-- C3: `loadModule(x)` fails with an error — with a single metadata fetch
(so no retry inside the call) and without attempting script injection (no
`scriptLoad` event) — when the metadata fetch itself errors (rethrown as
"Failed to fetch block metadata: ..."), when the fetched metadata has no
`federationUrl`, or when its `buildStatus` is anything other than success
(pending, building or failed). -/
theorem loadModule_metadata_gate (env : LoadEnv) (s : LoaderState) (x : String)
    (now : Nat) :
    (∀ e, env.fetchMeta = .error e →
        loadModuleInternal env s x now =
          (.error ("Failed to fetch block metadata: " ++ e), s.cache,
           [.metadataFetch])) ∧
    (∀ md, env.fetchMeta = .ok md → md.federationUrl = "" →
        loadModuleInternal env s x now =
          (.error ("Block " ++ x ++ " does not have a federation URL"), s.cache,
           [.metadataFetch])) ∧
    (∀ md, env.fetchMeta = .ok md → md.federationUrl ≠ "" →
        md.buildStatus ≠ .success →
        loadModuleInternal env s x now =
          (.error ("Block " ++ x ++ " build status is " ++ md.buildStatus.toText),
           s.cache, [.metadataFetch])) := by
  refine ⟨?_, ?_, ?_⟩
  · intro e he
    simp [loadModuleInternal, getBlockMetadata, he]
  · intro md hmd hurl
    simp [loadModuleInternal, getBlockMetadata, hmd, hurl]
  · intro md hmd hurl hbs
    simp [loadModuleInternal, getBlockMetadata, hmd, hurl, hbs]

/-- Witness for C3: a failed axios request, metadata with an empty
`federationUrl`, and metadata with `buildStatus` pending each make the
internal load fail after exactly one metadata fetch and no script load. -/
theorem loadModule_metadata_gate_witness :
    (loadModuleInternal
        { fetchMeta := .error "network unreachable",
          scriptOk := fun _ => true, window := fun _ => none }
        initialLoaderState "b1" 0 =
      (.error ("Failed to fetch block metadata: " ++ "network unreachable"),
       initialLoaderState.cache, [.metadataFetch])) ∧
    (loadModuleInternal
        { fetchMeta := .ok
            { blockId := "b1", title := "t", description := "d",
              federationUrl := "", buildStatus := .success },
          scriptOk := fun _ => true, window := fun _ => none }
        initialLoaderState "b1" 0 =
      (.error ("Block " ++ "b1" ++ " does not have a federation URL"),
       initialLoaderState.cache, [.metadataFetch])) ∧
    (loadModuleInternal
        { fetchMeta := .ok
            { blockId := "b1", title := "t", description := "d",
              federationUrl := "/u", buildStatus := .pending },
          scriptOk := fun _ => true, window := fun _ => none }
        initialLoaderState "b1" 0 =
      (.error ("Block " ++ "b1" ++ " build status is " ++ BuildStatus.pending.toText),
       initialLoaderState.cache, [.metadataFetch])) := by
  refine ⟨?_, ?_, ?_⟩
  · exact (loadModule_metadata_gate _ initialLoaderState "b1" 0).1
      "network unreachable" rfl
  · exact (loadModule_metadata_gate _ initialLoaderState "b1" 0).2.1 _ rfl rfl
  · exact (loadModule_metadata_gate
      { fetchMeta := .ok
          { blockId := "b1", title := "t", description := "d",
            federationUrl := "/u", buildStatus := .pending },
        scriptOk := fun _ => true, window := fun _ => none }
      initialLoaderState "b1" 0).2.2
      { blockId := "b1", title := "t", description := "d",
        federationUrl := "/u", buildStatus := .pending } rfl (by decide) (by decide)

theorem searchContainers_skip (w : String → Option Container) (n : String)
    (rest : List String) (h : candidateFails w n = true) :
    searchContainers w (n :: rest) = searchContainers w rest := by
  cases hw : w n with
  | none => simp [searchContainers, hw]
  | some c =>
      cases hg : c.getBlock with
      | error e => simp [searchContainers, hw, hg]
      | ok m =>
          have hm : hasMountFn m = false := by
            simpa [candidateFails, hw, hg] using h
          simp [searchContainers, hw, hg, hm]

theorem searchContainers_hit (w : String → Option Container) (n : String)
    (rest : List String) (c : Container) (m : FedModule) (hw : w n = some c)
    (hg : c.getBlock = .ok m) (hm : hasMountFn m = true) :
    searchContainers w (n :: rest) = some m := by
  simp [searchContainers, hw, hg, hm]

/-- C4: module extraction searches exactly `x`, `x` stripped of
non-alphanumeric characters, the stripped form prefixed with "block", and
the fixed legacy name "threescene", in that order (first conjunct); the
first candidate exposing a container whose module has a mount function is
returned (second conjunct); candidates that fail — absent container,
throwing `get`, or missing mount function, all collected in
`candidateFails` — are skipped with no error raised to the caller, so a
container present only under the third name still yields success (third
conjunct); and when every candidate fails, extraction errors with a
message listing all four candidate names (fourth conjunct). -/
theorem extractModule_candidate_search (x : String) (w : String → Option Container) :
    (possibleNames x =
       [x, stripNonAlnum x, "block" ++ stripNonAlnum x, "threescene"]) ∧
    (∀ c m, w x = some c → c.getBlock = .ok m → hasMountFn m = true →
        extractModule w x = .ok m) ∧
    (∀ c m, candidateFails w x = true →
        candidateFails w (stripNonAlnum x) = true →
        w ("block" ++ stripNonAlnum x) = some c → c.getBlock = .ok m →
        hasMountFn m = true → extractModule w x = .ok m) ∧
    ((∀ n, n ∈ possibleNames x → candidateFails w n = true) →
        extractModule w x =
          .error ("Federation container not found for block " ++ x ++
            ". Tried: " ++ String.intercalate ", " (possibleNames x))) := by
  refine ⟨rfl, ?_, ?_, ?_⟩
  · intro c m hw hg hm
    have hs : searchContainers w (possibleNames x) = some m := by
      rw [possibleNames]
      exact searchContainers_hit w x _ c m hw hg hm
    simp [extractModule, hs]
  · intro c m h1 h2 hw hg hm
    have hs : searchContainers w (possibleNames x) = some m := by
      rw [possibleNames]
      rw [searchContainers_skip w x _ h1, searchContainers_skip w (stripNonAlnum x) _ h2]
      exact searchContainers_hit w _ _ c m hw hg hm
    simp [extractModule, hs]
  · intro hall
    have hs : searchContainers w (possibleNames x) = none := by
      rw [possibleNames]
      rw [searchContainers_skip w x _ (hall x (by simp [possibleNames])),
        searchContainers_skip w (stripNonAlnum x) _
          (hall _ (by simp [possibleNames])),
        searchContainers_skip w ("block" ++ stripNonAlnum x) _
          (hall _ (by simp [possibleNames])),
        searchContainers_skip w "threescene" _ (hall _ (by simp [possibleNames]))]
      rfl
    simp [extractModule, hs]

/-- Witness for C4: for the identifier "b-1!" the candidate list is
`["b-1!", "b1", "blockb1", "threescene"]`; a namespace exposing a container
only under the third name "blockb1" yields the module with no error; a
namespace exposing it under the first name yields it too; an empty
namespace yields the error listing all four names. -/
theorem extractModule_candidate_search_witness :
    (possibleNames "b-1!" = ["b-1!", "b1", "blockb1", "threescene"]) ∧
    (extractModule thirdNameWindow "b-1!" = .ok sampleModule) ∧
    (extractModule sampleEnv.window "b1" = .ok sampleModule) ∧
    (extractModule (fun _ => none) "b-1!" =
      .error ("Federation container not found for block " ++ "b-1!" ++
        ". Tried: " ++ String.intercalate ", " (possibleNames "b-1!"))) := by
  refine ⟨(extractModule_candidate_search "b-1!" thirdNameWindow).1.trans (by decide),
    ?_, ?_, ?_⟩
  · exact (extractModule_candidate_search "b-1!" thirdNameWindow).2.2.1
      { getBlock := .ok sampleModule } sampleModule (by decide) (by decide)
      (by rfl) rfl (by decide)
  · exact (extractModule_candidate_search "b1" sampleEnv.window).2.1
      { getBlock := .ok sampleModule } sampleModule (by rfl) rfl (by decide)
  · exact (extractModule_candidate_search "b-1!" (fun _ => none)).2.2.2
      (fun n hn => rfl)

/-- C5: a `fetchRegistry` run whose network request fails propagates no
error — it returns the previously cached mappings as an ordinary value —
and leaves the registry state (both in-memory mappings and the rest)
untouched; consequently a `getBlockId` for a name cached by a prior
successful fetch still resolves to the previously fetched block
identifier, whether or not its staleness check routes it through the
failing refresh. -/
theorem registry_failed_refresh_keeps_mappings (s : RegistryState) (err : String)
    (now : Nat) (name : String) (e : BlockRegistryEntry)
    (h : lookupA s.registry name = some e) :
    (fetchRegistry s (.error err) now = (s, s.registry, s.authorRegistry)) ∧
    ((getBlockId s (.error err) now name).1 = s ∧
     (getBlockId s (.error err) now name).2.1 = some e.blockId) := by
  have hreg : getRegistry s (.error err) now = (s, s.registry, registryStale s now) := by
    by_cases hs : registryStale s now <;> simp [getRegistry, fetchRegistry, hs]
  refine ⟨rfl, ?_, ?_⟩
  · simp [getBlockId, hreg]
  · simp [getBlockId, hreg, h]

/-- Witness for C5: with "Chart" ↦ "abc123" cached from a fetch at time
1000, a refresh failing with ECONNREFUSED at time 400000 (past the TTL, so
the read does attempt it) keeps the state untouched and `getBlockId` still
returns "abc123". -/
theorem registry_failed_refresh_keeps_mappings_witness :
    (fetchRegistry chartRegistryState (.error "ECONNREFUSED") 400000 =
       (chartRegistryState, chartRegistryState.registry,
        chartRegistryState.authorRegistry)) ∧
    ((getBlockId chartRegistryState (.error "ECONNREFUSED") 400000 "Chart").1 =
       chartRegistryState ∧
     (getBlockId chartRegistryState (.error "ECONNREFUSED") 400000 "Chart").2.1 =
       some "abc123") := by
  exact registry_failed_refresh_keeps_mappings chartRegistryState "ECONNREFUSED"
    400000 "Chart" chartEntry (by rfl)

/-- C9: a registry response that succeeds at the HTTP layer but lacks the
`registry` field (resp. the `authorRegistry` field) replaces the
corresponding in-memory mapping with the empty mapping — discarding every
previously cached entry — and still sets `lastFetched` to the fetch time,
exactly as a response carrying data does (last conjunct: the new mappings
are always the response fields defaulted to empty). -/
theorem registry_missing_field_resets (s : RegistryState)
    (data : RegistryResponseData) (now : Nat) :
    ((fetchRegistry s (.ok data) now).1.lastFetched = now) ∧
    (data.registry = none → (fetchRegistry s (.ok data) now).1.registry = []) ∧
    (data.authorRegistry = none →
        (fetchRegistry s (.ok data) now).1.authorRegistry = []) ∧
    ((fetchRegistry s (.ok data) now).1.registry = data.registry.getD [] ∧
     (fetchRegistry s (.ok data) now).1.authorRegistry =
       data.authorRegistry.getD []) := by
  refine ⟨by simp [fetchRegistry], ?_, ?_, by simp [fetchRegistry], by simp [fetchRegistry]⟩
  · intro h
    simp [fetchRegistry, h]
  · intro h
    simp [fetchRegistry, h]

/-- Witness for C9: a bodyless-but-successful response wipes the previously
cached "Chart" mapping and the author mapping, and updates `lastFetched`
to the fetch time 400000. -/
theorem registry_missing_field_resets_witness :
    ((fetchRegistry chartRegistryState
        (.ok { registry := none, authorRegistry := none }) 400000).1.lastFetched =
      400000) ∧
    ((fetchRegistry chartRegistryState
        (.ok { registry := none, authorRegistry := none }) 400000).1.registry = []) ∧
    ((fetchRegistry chartRegistryState
        (.ok { registry := none, authorRegistry := none }) 400000).1.authorRegistry =
      []) := by
  have h := registry_missing_field_resets chartRegistryState
    { registry := none, authorRegistry := none } 400000
  exact ⟨h.1, h.2.1 rfl, h.2.2.1 rfl⟩

/-- C10: a failed registry fetch leaves the whole state — in particular
`lastFetched` and both mappings — unchanged (first conjunct); the
staleness conditions of `getRegistry` and `getAuthorRegistry` are
monotone in time, so whichever condition admitted the failing fetch still
holds at every later access (second and third conjuncts); a stale
`getRegistry` / `getAuthorRegistry` against a still-failing server
attempts the fetch (flag `true`) and again leaves the state unchanged
(fourth and fifth conjuncts); and the resolution and listing operations
attempt a fetch exactly when the underlying gated read does (remaining
conjuncts) — a failure never counts as freshening the cache. -/
theorem registry_failed_fetch_not_freshening (s : RegistryState) (err : String)
    (now : Nat) :
    ((fetchRegistry s (.error err) now).1 = s) ∧
    (∀ now2, now ≤ now2 → registryStale s now = true → registryStale s now2 = true) ∧
    (∀ now2, now ≤ now2 → authorRegistryStale s now = true →
        authorRegistryStale s now2 = true) ∧
    (∀ now2, registryStale s now2 = true →
        getRegistry s (.error err) now2 = (s, s.registry, true)) ∧
    (∀ now2, authorRegistryStale s now2 = true →
        getAuthorRegistry s (.error err) now2 = (s, s.authorRegistry, true)) ∧
    (∀ resp now2 name,
        (getBlockId s resp now2 name).2.2 = (getRegistry s resp now2).2.2) ∧
    (∀ resp now2 author name,
        (getAuthorBlockId s resp now2 author name).2.2 =
          (getAuthorRegistry s resp now2).2.2) ∧
    (∀ resp now2,
        (getAvailableComponents s resp now2).2.2 = (getRegistry s resp now2).2.2) := by
  refine ⟨rfl, ?_, ?_, ?_, ?_, fun resp now2 name => rfl,
    fun resp now2 author name => rfl, fun resp now2 => rfl⟩
  · intro now2 hle h
    simp only [registryStale, Bool.or_eq_true, decide_eq_true_eq] at h ⊢
    rcases h with h | h
    · exact Or.inl (lt_of_lt_of_le h (Nat.sub_le_sub_right hle _))
    · exact Or.inr h
  · intro now2 hle h
    simp only [authorRegistryStale, Bool.or_eq_true, decide_eq_true_eq] at h ⊢
    rcases h with h | h
    · exact Or.inl (lt_of_lt_of_le h (Nat.sub_le_sub_right hle _))
    · exact Or.inr h
  · intro now2 h
    simp [getRegistry, fetchRegistry, h]
  · intro now2 h
    simp [getAuthorRegistry, fetchRegistry, h]

/-- Witness for C10: after a fetch failure at time 400000 against the
state last freshened at 1000, the state is unchanged; staleness persists
from 400000 to 500000; a `getRegistry` at 500000 against the still-failing
server attempts the fetch and stays unchanged; and `getBlockId` attempts
a fetch exactly when `getRegistry` does. -/
theorem registry_failed_fetch_not_freshening_witness :
    ((fetchRegistry chartRegistryState (.error "ECONNREFUSED") 400000).1 =
       chartRegistryState) ∧
    (registryStale chartRegistryState 500000 = true) ∧
    (getRegistry chartRegistryState (.error "ECONNREFUSED") 500000 =
       (chartRegistryState, chartRegistryState.registry, true)) ∧
    ((getBlockId chartRegistryState (.error "ECONNREFUSED") 500000 "Chart").2.2 =
       (getRegistry chartRegistryState (.error "ECONNREFUSED") 500000).2.2) := by
  have h := registry_failed_fetch_not_freshening chartRegistryState "ECONNREFUSED" 400000
  exact ⟨h.1, h.2.1 500000 (by decide) (by decide),
    h.2.2.2.1 500000 (by decide),
    h.2.2.2.2.2.1 (.error "ECONNREFUSED") 500000 "Chart"⟩

/-- C8: a failed internal load — whether the metadata fetch errored,
`federationUrl` was missing, `buildStatus` was not success, the script
failed to load, or no candidate module was found — leaves the module
cache exactly unchanged (first conjunct); the synchronous call prefix of
`loadModule` never writes the cache either (second conjunct); completion
of a failed run keeps the pre-existing (possibly expired) cache, neither
removing nor modifying any entry (third conjunct); the cache is written
only by a fully successful run, as an upsert of the loaded identifier's
entry (fourth conjunct). -/
theorem loadModule_failure_preserves_cache (env : LoadEnv) (s : LoaderState)
    (x : String) (now : Nat) :
    (∀ e, (loadModuleInternal env s x now).1 = .error e →
        (loadModuleInternal env s x now).2.1 = s.cache) ∧
    (∀ y pid, ((loadModuleCall s y now pid).2).cache = s.cache) ∧
    (∀ e, (loadModuleInternal env s x now).1 = .error e →
        (completeLoad s x (loadModuleInternal env s x now)).cache = s.cache) ∧
    (∀ m, (loadModuleInternal env s x now).1 = .ok m →
        ∃ fu, (loadModuleInternal env s x now).2.1 =
          upsertA s.cache x
            { component := m, loadedAt := now, federationUrl := fu }) := by
  have hfail : ∀ e, (loadModuleInternal env s x now).1 = .error e →
      (loadModuleInternal env s x now).2.1 = s.cache := by
    intro e herr
    rcases loadModuleInternal_cases env s x now with ⟨hc, _⟩ | ⟨m, md, _, hok, _⟩
    · exact hc
    · rw [herr] at hok
      cases hok
  refine ⟨hfail, ?_, ?_, ?_⟩
  · intro y pid
    rcases loadModuleCall_cases s y now pid with ⟨e, hc, ht, heq⟩ | ⟨_, heq⟩
    · rw [heq]
    · rw [heq]
      rcases loadModuleStart_cases s y pid with ⟨q, hl, heq2⟩ | ⟨hl, heq2⟩
      · rw [heq2]
      · rw [heq2]
  · intro e herr
    rw [completeLoad_cache]
    exact hfail e herr
  · intro m hok
    rcases loadModuleInternal_cases env s x now with ⟨_, e, herr⟩ |
      ⟨m2, md, _, hok2, hc⟩
    · rw [herr] at hok
      cases hok
    · have hm : m2 = m := Except.ok.inj (hok2.symm.trans hok)
      rw [hm] at hc
      exact ⟨md.federationUrl, hc⟩

/-- Witness for C8: with "b1" already cached from the successful load at
time 0, a later internal run whose metadata fetch fails leaves the cache
as it was; the call prefix never touches the cache; and the successful
run of time 0 wrote exactly the upserted entry for "b1". -/
theorem loadModule_failure_preserves_cache_witness :
    ((loadModuleInternal
        { fetchMeta := .error "boom", scriptOk := fun _ => true,
          window := fun _ => none }
        sampleLoaded "b1" 400000).2.1 = sampleLoaded.cache) ∧
    ((loadModuleCall sampleLoaded "b1" 400000 9).2.cache = sampleLoaded.cache) ∧
    (∃ fu, (loadModuleInternal sampleEnv initialLoaderState "b1" 0).2.1 =
        upsertA initialLoaderState.cache "b1"
          { component := sampleModule, loadedAt := 0, federationUrl := fu }) := by
  have h := loadModule_failure_preserves_cache
    { fetchMeta := .error "boom", scriptOk := fun _ => true, window := fun _ => none }
    sampleLoaded "b1" 400000
  exact ⟨h.1 ("Failed to fetch block metadata: " ++ "boom") (by rfl),
    h.2.1 "b1" 9,
    (loadModule_failure_preserves_cache sampleEnv initialLoaderState "b1" 0).2.2.2
      sampleModule (by rfl)⟩

/-- C6 (code defect): `configure` never applies `cacheDuration` — the
`MextBlockConfig` interface declares the option, but only `serverUrl` and
`enableLogging` are read.  For every configuration the registry's
`cacheDuration` field is left unchanged (first conjunct); in particular
after `configure { cacheDuration := some 1000 }` the registry still uses
the 5-minute default (second conjunct); and the loader has no TTL field
at all — its freshness window is the hard-wired `MODULE_CACHE_TTL` of
300000 ms (third conjunct), which no configuration can reach. -/
theorem configure_ignores_cacheDuration :
    (∀ cfg loader reg, ((configure cfg loader reg).2).cacheDuration =
        reg.cacheDuration) ∧
    ((configure
        { serverUrl := none, cacheDuration := some 1000, enableLogging := none }
        initialLoaderState initialRegistryState).2.cacheDuration = 300000) ∧
    (MODULE_CACHE_TTL = 300000) := by
  refine ⟨?_, by rfl, by rfl⟩
  intro cfg loader reg
  cases hcs : cfg.serverUrl with
  | none => simp [configure, hcs]
  | some url =>
      by_cases hu : url = "" <;>
        simp [configure, hcs, hu, registrySetServerUrl]

/-- C7 counterexample: the `federationUrl` "httpfoo/remoteEntry.js" is not
an absolute URL (`specAbsoluteUrl`, stated from the spec, is false on it),
yet the resolved script URL is the value verbatim — not the configured
server base URL concatenated with it, which is a different string — since
the code's test is merely `startsWith('http')`. -/
theorem resolveScriptUrl_counterexample :
    specAbsoluteUrl "httpfoo/remoteEntry.js" = false ∧
    resolveScriptUrl "https://api.v2.mext.app" "httpfoo/remoteEntry.js" =
      "httpfoo/remoteEntry.js" ∧
    (("httpfoo/remoteEntry.js" : String) ==
      "https://api.v2.mext.app" ++ "httpfoo/remoteEntry.js") = false := by
  refine ⟨by decide, by decide, by decide⟩

/-- C7 (amended): the final script URL used for injection equals
`federationUrl` verbatim when `federationUrl` starts with "http" (as every
http/https absolute URL does), and otherwise equals the configured server
base URL concatenated with `federationUrl`; whenever the metadata gates
pass, the internal run's script activity targets exactly this resolved
URL. -/
theorem resolveScriptUrl_spec (serverUrl federationUrl : String) :
    (startsWithJs federationUrl "http" = true →
        resolveScriptUrl serverUrl federationUrl = federationUrl) ∧
    (startsWithJs federationUrl "http" = false →
        resolveScriptUrl serverUrl federationUrl = serverUrl ++ federationUrl) ∧
    (∀ env s x now md, env.fetchMeta = .ok md →
        md.federationUrl = federationUrl → s.serverUrl = serverUrl →
        federationUrl ≠ "" → md.buildStatus = .success →
        LoadEvent.scriptLoad (resolveScriptUrl serverUrl federationUrl) ∈
          (loadModuleInternal env s x now).2.2) := by
  refine ⟨?_, ?_, ?_⟩
  · intro h
    simp [resolveScriptUrl, h]
  · intro h
    simp [resolveScriptUrl, h]
  · intro env s x now md hmd hfu hsu hne hbs
    subst hfu
    subst hsu
    by_cases h3 : env.scriptOk (resolveScriptUrl s.serverUrl md.federationUrl)
    · cases hx : extractModule env.window x with
      | ok m =>
          simp [loadModuleInternal, getBlockMetadata, hmd, hne, hbs, h3, hx]
      | error e =>
          simp [loadModuleInternal, getBlockMetadata, hmd, hne, hbs, h3, hx]
    · simp [loadModuleInternal, getBlockMetadata, hmd, hne, hbs, h3]

/-- Witness for C7 (amended): an absolute URL is used verbatim, a
server-relative path is prefixed with the server base URL, and the sample
load's script activity targets the resolved URL. -/
theorem resolveScriptUrl_spec_witness :
    (resolveScriptUrl "https://api.v2.mext.app"
        "https://cdn.example.com/remoteEntry.js" =
      "https://cdn.example.com/remoteEntry.js") ∧
    (resolveScriptUrl "https://api.v2.mext.app" "/blocks/b1/remoteEntry.js" =
      "https://api.v2.mext.app" ++ "/blocks/b1/remoteEntry.js") ∧
    (LoadEvent.scriptLoad
        (resolveScriptUrl "https://api.v2.mext.app" "/blocks/b1/remoteEntry.js") ∈
      (loadModuleInternal sampleEnv initialLoaderState "b1" 0).2.2) := by
  have h1 := resolveScriptUrl_spec "https://api.v2.mext.app"
    "https://cdn.example.com/remoteEntry.js"
  have h2 := resolveScriptUrl_spec "https://api.v2.mext.app" "/blocks/b1/remoteEntry.js"
  exact ⟨h1.1 (by decide), h2.2.1 (by decide),
    h2.2.2 sampleEnv initialLoaderState "b1" 0 sampleMetadata rfl rfl rfl
      (by decide) rfl⟩
